import Mathlib

/-!
# Verification of the ngalert service core and Prometheus query hints

Shallow embedding of:

* `pkg/services/ngalert` (`ProvideService`, `AlertNG.init`, `AlertNG.Run`,
  `AlertNG.IsDisabled`, the `maxAttempts` / `defaultBaseIntervalSeconds` /
  `defaultIntervalSeconds` constants) — Go source in the repository;
* the alert-instance state machine, the scheduler's due-rule cadence and the
  per-tick retry loop — these live in the `schedule`/`state` packages whose
  sources are not part of this snapshot, so they are modelled from the spec
  (each such definition is marked `Modelled from the spec:`);
* `getQueryHints` from the Prometheus datasource plugin (TypeScript source in
  the repository).

Machine integers are modelled as `Int`/`Nat` (no overflow is reachable for the
small constants involved), Go `error` returns as `Except String`, and
JavaScript `undefined`/optional values as `Option`.
-/

/-! ## Constants from the ngalert Go source -/

/-- Source: `const maxAttempts int64 = 3`. -/
def maxAttempts : Int := 3

/-- Source: `defaultBaseIntervalSeconds = 10` (scheduler base interval). -/
def defaultBaseIntervalSeconds : Int := 10

/-- Source: `defaultIntervalSeconds int64 = 6 * defaultBaseIntervalSeconds`. -/
def defaultIntervalSeconds : Int := 6 * defaultBaseIntervalSeconds

/-! ## Configuration and service lifecycle (`ProvideService`, `init`, `IsDisabled`) -/

/-- The slice of `setting.Cfg` read by the ngalert service: the configured
base interval (seconds, as carried by `Cfg.AlertingBaseInterval` before the
`*= time.Second` conversion) and the result of `Cfg.IsNgAlertEnabled()`. -/
structure Cfg where
  alertingBaseInterval : Int
  ngAlertEnabled : Bool
deriving DecidableEq

/-- The components `AlertNG.init` constructs once the initial Alertmanager
sync has succeeded: the effective base interval handed to the store and the
scheduler, and flags recording that the sync completed and that the
scheduler, state manager and API endpoints were set up. -/
structure InitializedComponents where
  baseIntervalSeconds : Int
  syncCompleted : Bool
  schedulerBuilt : Bool
  stateManagerBuilt : Bool
  apiRegistered : Bool
deriving DecidableEq

/-- The `AlertNG` service record: its configuration (`nil` pointer modelled as
`none`) and, when `init` ran successfully, the constructed components. -/
structure AlertNG where
  cfg : Option Cfg
  components : Option InitializedComponents
deriving DecidableEq

/-- Source: `AlertNG.IsDisabled` — true when `ng.Cfg == nil`, otherwise the
negation of `ng.Cfg.IsNgAlertEnabled()`. -/
def AlertNG.IsDisabled (ng : AlertNG) : Bool :=
  match ng.cfg with
  | none => true
  | some c => !c.ngAlertEnabled

/-- Source: `AlertNG.init`. Computes the effective base interval (falling back
to `defaultBaseIntervalSeconds` when the configured value is not positive),
then runs the initial `LoadAndSyncAlertmanagersForOrgs` sync — whose outcome
is the `syncResult` argument, the only fallible step of `init` — and only on
success builds the scheduler, state manager and API registration. -/
def AlertNG.init (c : Cfg) (syncResult : Except String Unit) :
    Except String InitializedComponents :=
  let baseInterval :=
    if c.alertingBaseInterval ≤ 0 then defaultBaseIntervalSeconds
    else c.alertingBaseInterval
  match syncResult with
  | Except.error e => Except.error e
  | Except.ok _ => Except.ok ⟨baseInterval, true, true, true, true⟩

/-- Source: `ProvideService` — builds the `AlertNG` record, returns it
untouched when the service is disabled, and otherwise runs `init`,
propagating its error. -/
def ProvideService (cfg : Option Cfg) (syncResult : Except String Unit) :
    Except String AlertNG :=
  let ng : AlertNG := ⟨cfg, none⟩
  if ng.IsDisabled then Except.ok ng
  else
    match cfg with
    | none => Except.ok ng
    | some c =>
      match AlertNG.init c syncResult with
      | Except.error e => Except.error e
      | Except.ok comps => Except.ok ⟨cfg, some comps⟩

/-! ## Evaluator verdicts and the per-tick retry loop -/

/-- Per-label-set verdict produced by the Evaluator (spec §4.2): `Firing`,
`Normal`, or the distinguished `Error` / `NoData` outcomes. -/
inductive Verdict
  | firing
  | normal
  | errored
  | noData
deriving DecidableEq

/-- Modelled from the spec: the evaluation task's retry loop (the `schedule`
package is not part of this snapshot). `runQuery attempt` is the outcome of
the `attempt`-th query execution (`none` = transient failure). The loop makes
at most `budget` attempts, numbered from `attempt`; the first success yields
the real verdict, exhausting the budget yields an `Error` verdict instead of
propagating the failure. Returns the reported verdict and the number of
attempts actually made. -/
def retryLoop (runQuery : Nat → Option Verdict) (attempt : Nat) :
    Nat → Verdict × Nat
  | 0 => (Verdict.errored, 0)
  | budget + 1 =>
    match runQuery attempt with
    | some v => (v, 1)
    | none =>
      let r := retryLoop runQuery (attempt + 1) budget
      (r.1, r.2 + 1)

/-- Modelled from the spec: one rule's evaluation for one tick — the retry
loop seeded with attempt number 1 and the `maxAttempts` budget from the
source's constant. -/
def evaluateWithRetries (runQuery : Nat → Option Verdict) : Verdict × Nat :=
  retryLoop runQuery 1 maxAttempts.toNat

/-! ## Scheduler due-rule cadence -/

/-- Modelled from the spec: a rule with evaluation interval `I` seconds and
phase offset `phase` is due on tick `t` of a scheduler with base interval `B`
seconds iff its interval is an exact multiple of the base interval and
`(t + phase) mod (I / B) = 0`; a rule whose interval is not an exact multiple
of the base interval is never evaluated (the scheduler's tick loop is not
part of this snapshot). -/
def ruleDue (I B phase t : Nat) : Bool :=
  I % B == 0 && (t + phase) % (I / B) == 0

/-- Number of ticks among `0, 1, …, N-1` on which the rule is due
(i.e. dispatched, assuming no overlapping evaluation skips). -/
def dueCount (I B phase : Nat) : Nat → Nat
  | 0 => 0
  | N + 1 => dueCount I B phase N + (if ruleDue I B phase N then 1 else 0)

/-! ## The alert-instance state machine (spec §4.3) -/

/-- The five externally visible states of an alert instance. -/
inductive AlertState
  | normal
  | pending
  | alerting
  | error
  | noData
deriving DecidableEq

/-- Rule-level policy for mapping an `Error`/`NoData` verdict to a state
(spec §4.2: "treat as Alerting / Normal / Error / keep-last-state"). -/
inductive NoDataPolicy
  | treatAsAlerting
  | treatAsNormal
  | treatAsError
  | keepLast
deriving DecidableEq

/-- The rule data the state machine consults: the pending duration (seconds a
Firing verdict must persist before `Alerting`) and the no-data/error policy. -/
structure AlertRule where
  pendingDurationSeconds : Nat
  noDataPolicy : NoDataPolicy
deriving DecidableEq

/-- An alert instance's mutable attributes: current state, state-entry
timestamp, and last-evaluation timestamp (all times in seconds). -/
structure AlertInstance where
  state : AlertState
  stateSince : Nat
  lastEval : Nat
deriving DecidableEq

/-- A notification fan-out invocation emitted by a transition. -/
inductive TransitionEvent
  | fires
  | resolves
deriving DecidableEq

/-- Modelled from the spec (§4.3, Firing rows of the transition table):
`Normal --Firing--> Pending` (timestamp the entry);
`Pending --Firing, pending-duration elapsed--> Alerting` (fan-out fires);
`Alerting --Firing--> Alerting` (re-affirm, no fan-out); recovery from
`Error`/`NoData` on a successful Firing evaluation re-enters `Pending`. -/
def applyFiring (r : AlertRule) (i : AlertInstance) (now : Nat) :
    AlertInstance × List TransitionEvent :=
  match i.state with
  | AlertState.alerting => (⟨AlertState.alerting, i.stateSince, now⟩, [])
  | AlertState.pending =>
    if r.pendingDurationSeconds ≤ now - i.stateSince then
      (⟨AlertState.alerting, now, now⟩, [TransitionEvent.fires])
    else
      (⟨AlertState.pending, i.stateSince, now⟩, [])
  | _ => (⟨AlertState.pending, now, now⟩, [])

/-- Modelled from the spec (§4.3, Normal rows of the transition table):
`Alerting --Normal--> Normal` (fan-out resolves); `Pending --Normal--> Normal`
(condition cleared early, no notification); `Normal --Normal--> Normal` is not
a real transition and only refreshes the last-evaluation timestamp; recovery
from `Error`/`NoData` returns to `Normal` silently. -/
def applyNormalVerdict (i : AlertInstance) (now : Nat) :
    AlertInstance × List TransitionEvent :=
  match i.state with
  | AlertState.alerting => (⟨AlertState.normal, now, now⟩, [TransitionEvent.resolves])
  | AlertState.normal => (⟨AlertState.normal, i.stateSince, now⟩, [])
  | _ => (⟨AlertState.normal, now, now⟩, [])

/-- Modelled from the spec: the State Manager's verdict-driven step for one
instance (the `state` package is not part of this snapshot). `Error`/`NoData`
verdicts are routed through the rule's no-data policy: treated as a Firing or
Normal verdict, mapped to the `Error`/`NoData` state, or held at the current
state when the policy is keep-last-state. -/
def transition (r : AlertRule) (i : AlertInstance) (v : Verdict) (now : Nat) :
    AlertInstance × List TransitionEvent :=
  match v with
  | Verdict.firing => applyFiring r i now
  | Verdict.normal => applyNormalVerdict i now
  | Verdict.errored =>
    match r.noDataPolicy with
    | NoDataPolicy.treatAsAlerting => applyFiring r i now
    | NoDataPolicy.treatAsNormal => applyNormalVerdict i now
    | NoDataPolicy.treatAsError =>
      (⟨AlertState.error,
        if i.state = AlertState.error then i.stateSince else now, now⟩, [])
    | NoDataPolicy.keepLast => (⟨i.state, i.stateSince, now⟩, [])
  | Verdict.noData =>
    match r.noDataPolicy with
    | NoDataPolicy.treatAsAlerting => applyFiring r i now
    | NoDataPolicy.treatAsNormal => applyNormalVerdict i now
    | NoDataPolicy.treatAsError =>
      (⟨AlertState.noData,
        if i.state = AlertState.noData then i.stateSince else now, now⟩, [])
    | NoDataPolicy.keepLast => (⟨i.state, i.stateSince, now⟩, [])

/-- A transition crosses the externally visible Normal↔Alerting boundary iff
it enters `Alerting` from `Normal`/`Pending` or leaves `Alerting` for
`Normal`. -/
def crossesBoundary (pre post : AlertState) : Prop :=
  ((pre = AlertState.normal ∨ pre = AlertState.pending) ∧
    post = AlertState.alerting) ∨
  (pre = AlertState.alerting ∧ post = AlertState.normal)

instance (pre post : AlertState) : Decidable (crossesBoundary pre post) := by
  unfold crossesBoundary
  infer_instance

/-- Timestamp a verdict sequence: the first verdict is evaluated at `t0`,
each subsequent one `B` seconds later. -/
def withTimes (t0 B : Nat) : List Verdict → List (Verdict × Nat)
  | [] => []
  | v :: vs => (v, t0) :: withTimes (t0 + B) B vs

/-- The sequence of instance values after each step of a timed verdict run. -/
def runSteps (r : AlertRule) (i : AlertInstance) :
    List (Verdict × Nat) → List AlertInstance
  | [] => []
  | (v, t) :: rest => (transition r i v t).1 :: runSteps r (transition r i v t).1 rest

/-- The instance value after a whole timed verdict run. -/
def endState (r : AlertRule) (i : AlertInstance) :
    List (Verdict × Nat) → AlertInstance
  | [] => i
  | (v, t) :: rest => endState r (transition r i v t).1 rest

/-- How many steps of a timed verdict run enter the `Alerting` state. -/
def alertingEntries (r : AlertRule) (i : AlertInstance) :
    List (Verdict × Nat) → Nat
  | [] => 0
  | (v, t) :: rest =>
    (if i.state ≠ AlertState.alerting ∧
        (transition r i v t).1.state = AlertState.alerting then 1 else 0) +
      alertingEntries r (transition r i v t).1 rest

/-! ## The lifecycle of `AlertNG.Run` as an event trace -/

/-- The two long-running loops `AlertNG.Run` starts in one errgroup. -/
inductive SubTask
  | scheduler
  | notifier
deriving DecidableEq

/-- The statements of `AlertNG.Run`'s body, in source order:
`ng.stateManager.Warm()`, then `children.Go` for the scheduler loop and for
the `MultiOrgAlertmanager` loop, then `return children.Wait()`. -/
inductive RunStmt
  | callWarm
  | goTask (t : SubTask)
  | wait
deriving DecidableEq

/-- `AlertNG.Run`'s body translated statement by statement from the source. -/
def runBody : List RunStmt :=
  [RunStmt.callWarm, RunStmt.goTask SubTask.scheduler,
    RunStmt.goTask SubTask.notifier, RunStmt.wait]

/-- The tasks registered in the errgroup before its `Wait` is reached. -/
def registeredBeforeWait : List RunStmt → List SubTask
  | [] => []
  | RunStmt.wait :: _ => []
  | RunStmt.goTask t :: rest => t :: registeredBeforeWait rest
  | RunStmt.callWarm :: rest => registeredBeforeWait rest

/-- Observable events of one execution of `AlertNG.Run`: the warm-start load
returning, a sub-task being started or terminating, the scheduler dispatching
a tick, the parent context being cancelled, and `Run` returning. -/
inductive RunEvent
  | warm
  | start (t : SubTask)
  | stop (t : SubTask)
  | tick (n : Nat)
  | cancel
  | ret
deriving DecidableEq

/-- Is the event a scheduler tick dispatch? -/
def isTick : RunEvent → Bool
  | RunEvent.tick _ => true
  | _ => false

/-- `eachPrecededBy anchor tgt l = true` iff every element of `l` satisfying
`tgt` is strictly preceded by some element satisfying `anchor` (scanning from
the head: hitting a target before any anchor refutes it, hitting an anchor
discharges everything after it). -/
def eachPrecededBy (anchor tgt : RunEvent → Bool) : List RunEvent → Bool
  | [] => true
  | e :: rest =>
    if tgt e then false
    else if anchor e then true
    else eachPrecededBy anchor tgt rest

/-- The traces an execution of `AlertNG.Run` can produce, given the source's
straight-line body `runBody` (Warm is called once, before the two `Go`
registrations, whose `Wait` is returned), the errgroup contract (`Wait`
returns only after every registered function has returned), and the
spec-level contracts of the two loops (the scheduler dispatches ticks only
while it runs; a cancelled context makes each registered loop terminate). -/
structure ValidTrace (tr : List RunEvent) : Prop where
  warmOnce : tr.count RunEvent.warm = 1
  warmBeforeSched :
    eachPrecededBy (fun e => e == RunEvent.warm)
      (fun e => e == RunEvent.start SubTask.scheduler) tr = true
  schedBeforeNotif :
    eachPrecededBy (fun e => e == RunEvent.start SubTask.scheduler)
      (fun e => e == RunEvent.start SubTask.notifier) tr = true
  retOccurs : RunEvent.ret ∈ tr
  joinBeforeRet : ∀ t ∈ registeredBeforeWait runBody,
    eachPrecededBy (fun e => e == RunEvent.stop t)
      (fun e => e == RunEvent.ret) tr = true
  ticksAfterSchedStart :
    eachPrecededBy (fun e => e == RunEvent.start SubTask.scheduler) isTick tr = true
  cancelStopsAll : RunEvent.cancel ∈ tr →
    ∀ t ∈ registeredBeforeWait runBody, RunEvent.stop t ∈ tr

/-! ## Prometheus datasource query hints (`query_hints.ts`) -/

/-- Source: `SUM_HINT_THRESHOLD_COUNT = 20` — number of time-series results
needed before suggesting a sum aggregation hint. -/
def SUM_HINT_THRESHOLD_COUNT : Nat := 20

/-- JavaScript `\w`, i.e. `[A-Za-z0-9_]`. -/
def isWordChar (c : Char) : Bool := c.isAlphanum || c == '_'

/-- `query.trim().match(/^\w+$/)` — the trimmed expression is a single bare
metric name. The argument is the already-trimmed string. -/
def isSimpleMetric (s : String) : Bool := !s.isEmpty && s.toList.all isWordChar

/-- `query.trim().match(/^\w+_bucket$/)` — at least one word character
followed by the literal `_bucket` (7 characters), all of it word characters.
The argument is the already-trimmed string. -/
def isHistogramMetric (s : String) : Bool :=
  s.toList.all isWordChar && s.endsWith "_bucket" && decide (8 ≤ s.length)

/-- `hay.indexOf(needle) !== -1` — substring containment. -/
def strContains (hay needle : String) : Bool :=
  (List.range (hay.toList.length + 1)).any (fun p =>
    (hay.toList.drop p).take needle.toList.length == needle.toList)

/-- The maximal runs of word characters of a string, in order. -/
def wordRuns (s : String) : List (List Char) :=
  (s.toList.splitOnP (fun c => !isWordChar c)).filter (fun r => !r.isEmpty)

/-- Whether a maximal word run is matched by `\w+_(total|sum|count)` ending at
the run's end: it must end in one of the three suffixes with a nonempty `\w+`
before it. -/
def isCounterLike (run : List Char) : Bool :=
  (String.mk run |>.endsWith "_total") && decide (7 ≤ run.length) ||
  (String.mk run |>.endsWith "_sum") && decide (5 ≤ run.length) ||
  (String.mk run |>.endsWith "_count") && decide (7 ≤ run.length)

/-- `query.match(/\b(\w+_(total|sum|count))\b/)`, group 1. Because both `\b`
anchors sit against `\w` characters, a match can only start at the beginning
of a maximal word run and must extend to its end, so the leftmost match is the
first counter-like word run. -/
def findCounterToken (query : String) : Option String :=
  ((wordRuns query).find? isCounterLike).map String.mk

/-- Is the character at index `i` a word character (out of range = no)? -/
def charIsWordAt (l : List Char) (i : Nat) : Bool :=
  match l[i]? with
  | some c => isWordChar c
  | none => false

/-- JavaScript regex word boundary `\b` at position `p` of `l` (positions run
from `0` to `l.length`): word-ness changes between the neighbouring
characters, with out-of-range positions counting as non-word. -/
def boundaryAt (l : List Char) (p : Nat) : Bool :=
  if p = 0 then charIsWordAt l 0
  else charIsWordAt l (p - 1) != charIsWordAt l p

/-- `query.match(new RegExp(\x7b backtick \x7d\b${metricName}\b...))` — the
metric name occurs in the query delimited by word boundaries on both sides
(metric names contain no regex metacharacters). -/
def wholeWordContains (hay needle : String) : Bool :=
  (List.range (hay.toList.length + 1)).any (fun p =>
    ((hay.toList.drop p).take needle.toList.length == needle.toList) &&
      boundaryAt hay.toList p && boundaryAt hay.toList (p + needle.toList.length))

/-- The `action` object of a `QueryFix`: its `type`, the query it carries,
the optional `preventSubmit` flag (absent = `false`) and, for the
`EXPAND_RULES` fix only, the rule mapping. -/
structure QueryFixAction where
  type : String
  query : String
  preventSubmit : Bool
  mapping : Option (List (String × String))
deriving DecidableEq

/-- A `QueryFix`: its label and action. -/
structure QueryFix where
  label : String
  action : QueryFixAction
deriving DecidableEq

/-- A `QueryHint`: its type, label and optional fix. -/
structure QueryHint where
  type : String
  label : String
  fix : Option QueryFix
deriving DecidableEq

/-- The fields of `PromQuery` that `getQueryHints` reads (all optional in
TypeScript). -/
structure PromQuery where
  expr : Option String
  interval : Option String
  stepMode : Option String

/-- An opaque time range (only handed through to `datasource.getRange`). -/
structure TimeRange where
  fromMs : Nat
  toMs : Nat

/-- One metric's metadata as consulted by `getQueryHints`: the source reads
only `metricsMetadata[metricName][0].type` ("Only considering first type
information"), so the model carries that first entry's type directly. -/
structure MetricMeta where
  type : String

/-- The language provider: its `metricsMetadata` property may be absent. -/
structure LanguageProvider where
  metricsMetadata : Option (List (String × MetricMeta))

/-- The slice of `PrometheusDatasource` that `getQueryHints` reads. Numeric
range/interval values are modelled as `Nat` seconds. -/
structure Datasource where
  languageProvider : Option LanguageProvider
  ruleMappings : Option (List (String × String))
  getRange : TimeRange → Nat
  getSafeInterval : Nat → Nat

/-- `datasource?.languageProvider?.metricsMetadata ?? \x7b\x7d` with
`Object.keys` order preserved as list order. -/
def metricsMetadataOf (datasource : Option Datasource) : List (String × MetricMeta) :=
  match datasource with
  | none => []
  | some ds =>
    match ds.languageProvider with
    | none => []
    | some lp => lp.metricsMetadata.getD []

/-- First branch of `getQueryHints`: a `..._bucket` metric needs a
`histogram_quantile()`. -/
def histogramHints (query : String) : List QueryHint :=
  if isHistogramMetric query.trim then
    [⟨"HISTOGRAM_QUANTILE", "Time series has buckets, you probably wanted a histogram.",
      some ⟨"Fix by adding histogram_quantile().",
        ⟨"ADD_HISTOGRAM_QUANTILE", query, false, none⟩⟩⟩]
  else []

/-- Second branch of `getQueryHints`: the need-of-`rate()` check. The
`certain` flag is set exactly when the metadata search finds a counter whose
name occurs (word-delimited) in the query; when metadata is present the found
key (or `''`) replaces the regex-derived candidate. -/
def rateHints (query : String) (datasource : Option Datasource) : List QueryHint :=
  if !strContains query "rate(" && !strContains query "increase(" then
    let initialCounterName :=
      match findCounterToken query with
      | some s => s
      | none => ""
    let metricsMetadata := metricsMetadataOf datasource
    let found :=
      if metricsMetadata.length > 0 then
        match metricsMetadata.find? (fun kv =>
            kv.2.type.toLower == "counter" && wholeWordContains query kv.1) with
        | some kv => (kv.1, true)
        | none => ("", false)
      else (initialCounterName, false)
    let counterNameMetric := found.1
    let certain := found.2
    if counterNameMetric = "" then []
    else
      let verb := if certain then "is" else "looks like"
      let baseLabel := "Metric " ++ counterNameMetric ++ " " ++ verb ++ " a counter."
      if isSimpleMetric query.trim then
        [⟨"APPLY_RATE", baseLabel,
          some ⟨"Fix by adding rate().", ⟨"ADD_RATE", query, false, none⟩⟩⟩]
      else
        [⟨"APPLY_RATE", baseLabel ++ " Try applying a rate() function.", none⟩]
  else []

/-- Third branch of `getQueryHints`: recording-rules expansion. The source's
`query.search(ruleName) > -1` (rule names contain no regex metacharacters) is
substring containment. -/
def expandRuleHints (query : String) (datasource : Option Datasource) : List QueryHint :=
  match datasource with
  | none => []
  | some ds =>
    match ds.ruleMappings with
    | none => []
    | some mapping =>
      let mappingForQuery := mapping.filter (fun kv => strContains query kv.1)
      if mappingForQuery.length > 0 then
        [⟨"EXPAND_RULES", "Query contains recording rules.",
          some ⟨"Expand rules", ⟨"EXPAND_RULES", query, false, some mappingForQuery⟩⟩⟩]
      else []

/-- Fourth branch of `getQueryHints`: suggest `sum()` when a series array is
supplied (any array is truthy in JavaScript, even an empty one) with at least
`SUM_HINT_THRESHOLD_COUNT` entries and the trimmed query is a bare metric
name. -/
def sumHints (query : String) (series : Option (List Unit)) : List QueryHint :=
  match series with
  | none => []
  | some l =>
    if SUM_HINT_THRESHOLD_COUNT ≤ l.length then
      if isSimpleMetric query.trim then
        [⟨"ADD_SUM", "Many time series results returned.",
          some ⟨"Consider aggregating with sum().",
            ⟨"ADD_SUM", query, true, none⟩⟩⟩]
      else []
    else []

/-- JavaScript string coercion of a possibly-undefined number. -/
def optNatToJSString : Option Nat → String
  | some n => toString n
  | none => "undefined"

/-- Fifth branch of `getQueryHints`: warn when the step interval is below the
safe interval. `intervalToSeconds` stands for the imported
`rangeUtil.intervalToSeconds` (implementation outside this snapshot). -/
def safeIntervalHints (intervalToSeconds : String → Nat) (promQuery : PromQuery)
    (datasource : Option Datasource) (timeRange : Option TimeRange) : List QueryHint :=
  match timeRange with
  | none => []
  | some trg =>
    let range := datasource.map (fun ds => ds.getRange trg)
    let safeInterval := datasource.map (fun ds => ds.getSafeInterval (range.getD 0))
    let interval := intervalToSeconds (promQuery.interval.getD "15s")
    let label :=
      if promQuery.stepMode == some "exact" then
        "The specified step interval is lower than the safe interval and has been changed to " ++
          optNatToJSString safeInterval ++
          "s. Consider increasing the step interval or changing the time range"
      else
        "The specified step interval is lower than the safe interval. Consider increasing the step interval or changing the time range"
    match safeInterval with
    | some si => if si ≠ 0 ∧ interval < si then [⟨"SAFE_INTERVAL", label, none⟩] else []
    | none => []

/-- Source: `getQueryHints` — the five hint branches applied in source order
to `query = promQuery.expr || ''`. -/
def getQueryHints (intervalToSeconds : String → Nat) (promQuery : PromQuery)
    (series : Option (List Unit)) (datasource : Option Datasource)
    (timeRange : Option TimeRange) : List QueryHint :=
  let query := promQuery.expr.getD ""
  histogramHints query ++ rateHints query datasource ++
    expandRuleHints query datasource ++ sumHints query series ++
    safeIntervalHints intervalToSeconds promQuery datasource timeRange

/-! ## Helper lemmas -/

theorem retryLoop_zero (q : Nat → Option Verdict) (a : Nat) :
    retryLoop q a 0 = (Verdict.errored, 0) := rfl

theorem retryLoop_succ (q : Nat → Option Verdict) (a b : Nat) :
    retryLoop q a (b + 1) =
      match q a with
      | some v => (v, 1)
      | none => ((retryLoop q (a + 1) b).1, (retryLoop q (a + 1) b).2 + 1) := rfl

theorem retryLoop_attempts_le (q : Nat → Option Verdict) :
    ∀ (b a : Nat), (retryLoop q a b).2 ≤ b := by
  intro b
  induction b with
  | zero => intro a; simp [retryLoop]
  | succ n ih =>
    intro a
    rw [retryLoop_succ]
    cases h : q a with
    | some v => simp
    | none => simpa using Nat.succ_le_succ (ih (a + 1))

/-! ## Claim theorems -/

/-- C8: the configuration defaults — base tick interval 10 seconds (used
whenever the configured base interval is not positive), default rule interval
60 seconds (6× the base interval), and max evaluation attempts 3. -/
theorem configuration_defaults :
    defaultBaseIntervalSeconds = 10 ∧
    defaultIntervalSeconds = 60 ∧
    defaultIntervalSeconds = 6 * defaultBaseIntervalSeconds ∧
    maxAttempts = 3 ∧
    (∀ (c : Cfg) (sync : Except String Unit) (comps : InitializedComponents),
      c.alertingBaseInterval ≤ 0 → AlertNG.init c sync = Except.ok comps →
      comps.baseIntervalSeconds = defaultBaseIntervalSeconds) ∧
    (∀ (c : Cfg) (sync : Except String Unit) (comps : InitializedComponents),
      0 < c.alertingBaseInterval → AlertNG.init c sync = Except.ok comps →
      comps.baseIntervalSeconds = c.alertingBaseInterval) := by
  refine ⟨rfl, by decide, by decide, rfl, ?_, ?_⟩
  · intro c sync comps h hok
    cases sync with
    | error e => simp [AlertNG.init] at hok
    | ok u =>
      simp only [AlertNG.init, Except.ok.injEq] at hok
      rw [← hok]
      simp [if_pos h]
  · intro c sync comps h hok
    cases sync with
    | error e => simp [AlertNG.init] at hok
    | ok u =>
      simp only [AlertNG.init, Except.ok.injEq] at hok
      rw [← hok]
      simp [if_neg (by omega : ¬c.alertingBaseInterval ≤ 0)]

/-- Witness for C8: a non-positive configured base interval (0) falls back to
the 10-second default. -/
theorem configuration_defaults_witness :
    (Cfg.alertingBaseInterval ⟨0, true⟩ ≤ 0) ∧
    InitializedComponents.baseIntervalSeconds ⟨10, true, true, true, true⟩ =
      defaultBaseIntervalSeconds := by
  refine ⟨by decide, ?_⟩
  exact configuration_defaults.2.2.2.2.1 ⟨0, true⟩ (Except.ok ())
    ⟨10, true, true, true, true⟩ (by decide) rfl

/-- C7: for an enabled service the only fatal startup failure is the initial
Alertmanager sync — `init` (and hence `ProvideService`) returns an error
exactly when the sync does, with the same error, and on error no components
record is produced. -/
theorem fatal_only_on_initial_sync_failure :
    ∀ (c : Cfg) (sync : Except String Unit), c.ngAlertEnabled = true →
    (∀ e, AlertNG.init c sync = Except.error e ↔ sync = Except.error e) ∧
    (∀ e, ProvideService (some c) sync = Except.error e ↔ sync = Except.error e) := by
  intro c sync hc
  constructor
  · intro e
    cases sync <;> simp [AlertNG.init]
  · intro e
    cases sync <;> simp [ProvideService, AlertNG.IsDisabled, hc, AlertNG.init]

/-- Witness for C7: with ng-alert enabled, a failing initial sync makes
`ProvideService` return that very error. -/
theorem fatal_only_on_initial_sync_failure_witness :
    (Cfg.ngAlertEnabled ⟨5, true⟩ = true) ∧
    (ProvideService (some ⟨5, true⟩) (Except.error "sync failed") =
        Except.error "sync failed" ↔
      (Except.error "sync failed" : Except String Unit) = Except.error "sync failed") :=
  ⟨rfl, (fatal_only_on_initial_sync_failure ⟨5, true⟩ (Except.error "sync failed")
    rfl).2 "sync failed"⟩

/-- C9: `IsDisabled` is true whenever `Cfg` is nil or ng-alert is not enabled,
and for a disabled service `ProvideService` returns the bare service record
with no error and performs no initialization — no components are constructed
and even a failing sync is never consulted. -/
theorem disabled_service_skips_initialization :
    ∀ (cfg : Option Cfg) (sync : Except String Unit),
    (cfg = none → AlertNG.IsDisabled ⟨cfg, none⟩ = true) ∧
    (∀ c, cfg = some c → c.ngAlertEnabled = false →
      AlertNG.IsDisabled ⟨cfg, none⟩ = true) ∧
    (AlertNG.IsDisabled ⟨cfg, none⟩ = true →
      ProvideService cfg sync = Except.ok ⟨cfg, none⟩) := by
  intro cfg sync
  refine ⟨?_, ?_, ?_⟩
  · rintro rfl; rfl
  · rintro c rfl hc
    simp [AlertNG.IsDisabled, hc]
  · intro hdis
    simp [ProvideService, hdis]

/-- Witness for C9: a nil configuration yields a disabled service and
`ProvideService` succeeds without initializing anything, even when the sync
would fail. -/
theorem disabled_service_skips_initialization_witness :
    (AlertNG.IsDisabled ⟨none, none⟩ = true) ∧
    ProvideService none (Except.error "boom") = Except.ok ⟨none, none⟩ :=
  ⟨(disabled_service_skips_initialization none (Except.error "boom")).1 rfl,
    (disabled_service_skips_initialization none (Except.error "boom")).2.2 rfl⟩

/-- C4: per tick, query execution is attempted at most `maxAttempts` (= 3)
times; a success on any attempt within the budget yields the real verdict
with exactly that many attempts made, and failing all 3 yields an Error
verdict with exactly 3 attempts — never a propagated failure. -/
theorem retry_budget :
    ∀ runQuery : Nat → Option Verdict,
    (evaluateWithRetries runQuery).2 ≤ maxAttempts.toNat ∧
    ((∀ i, 1 ≤ i → i ≤ 3 → runQuery i = none) →
      evaluateWithRetries runQuery = (Verdict.errored, 3)) ∧
    (∀ j v, 1 ≤ j → j ≤ 3 → (∀ i, 1 ≤ i → i < j → runQuery i = none) →
      runQuery j = some v → evaluateWithRetries runQuery = (v, j)) := by
  intro q
  refine ⟨retryLoop_attempts_le q 3 1, ?_, ?_⟩
  · intro hall
    have h1 := hall 1 (by omega) (by omega)
    have h2 := hall 2 (by omega) (by omega)
    have h3 := hall 3 (by omega) (by omega)
    show retryLoop q 1 3 = (Verdict.errored, 3)
    rw [show (3 : Nat) = 2 + 1 from rfl, retryLoop_succ, h1,
      show (2 : Nat) = 1 + 1 from rfl, retryLoop_succ, h2,
      show (1 : Nat) = 0 + 1 from rfl, retryLoop_succ, h3]
    rfl
  · intro j v hj1 hj3 hbefore hj
    show retryLoop q 1 3 = (v, j)
    interval_cases j
    · rw [show (3 : Nat) = 2 + 1 from rfl, retryLoop_succ, hj]
    · have h1 := hbefore 1 (by omega) (by omega)
      rw [show (3 : Nat) = 2 + 1 from rfl, retryLoop_succ, h1,
        show (2 : Nat) = 1 + 1 from rfl, retryLoop_succ, hj]
    · have h1 := hbefore 1 (by omega) (by omega)
      have h2 := hbefore 2 (by omega) (by omega)
      rw [show (3 : Nat) = 2 + 1 from rfl, retryLoop_succ, h1,
        show (2 : Nat) = 1 + 1 from rfl, retryLoop_succ, h2,
        show (1 : Nat) = 0 + 1 from rfl, retryLoop_succ, hj]

/-- Witness for C4: an evaluator failing on attempts 1 and 2 and succeeding
on attempt 3 yields the real verdict in exactly 3 attempts; one failing on
all attempts yields the Error verdict in exactly 3 attempts. -/
theorem retry_budget_witness :
    evaluateWithRetries (fun i => if i = 3 then some Verdict.firing else none) =
      (Verdict.firing, 3) ∧
    evaluateWithRetries (fun _ => none) = (Verdict.errored, 3) := by
  constructor
  · exact (retry_budget (fun i => if i = 3 then some Verdict.firing else none)).2.2
      3 Verdict.firing (by omega) (by omega)
      (fun i h1 h2 => by rw [if_neg (by omega)]) (by rw [if_pos rfl])
  · exact (retry_budget (fun _ => none)).2.1 (fun i h1 h2 => rfl)

/-- C2: each verdict-driven step of the state machine invokes the
notification fan-out exactly once when it crosses the Normal↔Alerting
boundary (entering `Alerting`, or resolving from `Alerting` to `Normal`),
and zero times for every other step — including a Firing verdict while
already `Alerting` and a Pending→Pending refresh. -/
theorem fanout_exactly_on_boundary :
    ∀ (r : AlertRule) (i : AlertInstance) (v : Verdict) (now : Nat),
    ((transition r i v now).2).length =
      if crossesBoundary i.state ((transition r i v now).1).state then 1 else 0 := by
  intro r i v now
  rcases r with ⟨pd, pol⟩
  rcases i with ⟨s, since, le⟩
  by_cases h : pd ≤ now - since <;>
    cases v <;> cases pol <;> cases s <;>
    simp [transition, applyFiring, applyNormalVerdict, crossesBoundary, h]

theorem filter_addSum_histogramHints (q : String) :
    (histogramHints q).filter (fun h => h.type == "ADD_SUM") = [] := by
  unfold histogramHints
  split <;> rfl

theorem filter_addSum_rateHints (q : String) (ds : Option Datasource) :
    (rateHints q ds).filter (fun h => h.type == "ADD_SUM") = [] := by
  unfold rateHints
  repeat' (first | split | dsimp only)
  all_goals rfl

theorem filter_addSum_expandRuleHints (q : String) (ds : Option Datasource) :
    (expandRuleHints q ds).filter (fun h => h.type == "ADD_SUM") = [] := by
  unfold expandRuleHints
  repeat' (first | split | dsimp only)
  all_goals rfl

theorem filter_addSum_safeIntervalHints (its : String → Nat) (pq : PromQuery)
    (ds : Option Datasource) (trg : Option TimeRange) :
    (safeIntervalHints its pq ds trg).filter (fun h => h.type == "ADD_SUM") = [] := by
  unfold safeIntervalHints
  repeat' (first | split | dsimp only)
  all_goals rfl

theorem filter_addSum_sumHints (q : String) (series : Option (List Unit)) :
    (sumHints q series).filter (fun h => h.type == "ADD_SUM") =
      sumHints q series := by
  unfold sumHints
  repeat' (first | split | dsimp only)
  all_goals rfl

theorem getQueryHints_filter_addSum (its : String → Nat) (pq : PromQuery)
    (series : Option (List Unit)) (ds : Option Datasource) (trg : Option TimeRange) :
    (getQueryHints its pq series ds trg).filter (fun h => h.type == "ADD_SUM") =
      sumHints (pq.expr.getD "") series := by
  unfold getQueryHints
  simp only [List.filter_append, filter_addSum_histogramHints, filter_addSum_rateHints,
    filter_addSum_expandRuleHints, filter_addSum_sumHints, filter_addSum_safeIntervalHints,
    List.nil_append, List.append_nil]

/-- C10: `getQueryHints` returns a hint of type `ADD_SUM` iff a series array
is supplied with at least `SUM_HINT_THRESHOLD_COUNT` (20) entries and the
trimmed query expression is a single bare metric name; any such hint carries
the fix with the original query and `preventSubmit` set. -/
theorem addSum_hint_characterization :
    ∀ (its : String → Nat) (pq : PromQuery) (series : Option (List Unit))
      (ds : Option Datasource) (trg : Option TimeRange),
    ((∃ hint ∈ getQueryHints its pq series ds trg, hint.type = "ADD_SUM") ↔
      ((∃ l, series = some l ∧ SUM_HINT_THRESHOLD_COUNT ≤ l.length) ∧
        isSimpleMetric ((pq.expr.getD "").trim) = true)) ∧
    (∀ hint ∈ getQueryHints its pq series ds trg, hint.type = "ADD_SUM" →
      hint.fix = some ⟨"Consider aggregating with sum().",
        ⟨"ADD_SUM", pq.expr.getD "", true, none⟩⟩) := by
  intro its pq series ds trg
  have hfilter := getQueryHints_filter_addSum its pq series ds trg
  constructor
  · constructor
    · rintro ⟨hint, hmem, htype⟩
      have hf : hint ∈ (getQueryHints its pq series ds trg).filter
          (fun h => h.type == "ADD_SUM") :=
        List.mem_filter.mpr ⟨hmem, by simp [htype]⟩
      rw [hfilter] at hf
      cases series with
      | none => simp [sumHints] at hf
      | some l =>
        by_cases hlen : SUM_HINT_THRESHOLD_COUNT ≤ l.length
        · by_cases hsimple : isSimpleMetric ((pq.expr.getD "").trim) = true
          · exact ⟨⟨l, rfl, hlen⟩, hsimple⟩
          · rw [sumHints, if_pos hlen, if_neg hsimple] at hf
            simp at hf
        · rw [sumHints, if_neg hlen] at hf
          simp at hf
    · rintro ⟨⟨l, rfl, hlen⟩, hsimple⟩
      refine ⟨⟨"ADD_SUM", "Many time series results returned.",
        some ⟨"Consider aggregating with sum().",
          ⟨"ADD_SUM", pq.expr.getD "", true, none⟩⟩⟩, ?_, rfl⟩
      have hs : (⟨"ADD_SUM", "Many time series results returned.",
          some ⟨"Consider aggregating with sum().",
            ⟨"ADD_SUM", pq.expr.getD "", true, none⟩⟩⟩ : QueryHint) ∈
          sumHints (pq.expr.getD "") (some l) := by
        rw [sumHints, if_pos hlen, if_pos hsimple]
        exact List.mem_singleton.mpr rfl
      rw [← hfilter] at hs
      exact (List.mem_filter.mp hs).1
  · intro hint hmem htype
    have hf : hint ∈ (getQueryHints its pq series ds trg).filter
        (fun h => h.type == "ADD_SUM") :=
      List.mem_filter.mpr ⟨hmem, by simp [htype]⟩
    rw [hfilter] at hf
    cases series with
    | none => simp [sumHints] at hf
    | some l =>
      by_cases hlen : SUM_HINT_THRESHOLD_COUNT ≤ l.length
      · by_cases hsimple : isSimpleMetric ((pq.expr.getD "").trim) = true
        · rw [sumHints, if_pos hlen, if_pos hsimple] at hf
          rw [List.mem_singleton.mp hf]
        · rw [sumHints, if_pos hlen, if_neg hsimple] at hf
          simp at hf
      · rw [sumHints, if_neg hlen] at hf
        simp at hf

/-- Count of ticks `t < N` with `(t + c) % m = 0`. -/
def congCount (m c : Nat) : Nat → Nat
  | 0 => 0
  | N + 1 => congCount m c N + (if (N + c) % m = 0 then 1 else 0)

theorem dueCount_eq_congCount (I B phase : Nat) (h : I % B = 0) :
    ∀ N, dueCount I B phase N = congCount (I / B) phase N := by
  intro N
  induction N with
  | zero => rfl
  | succ n ih =>
    rw [dueCount, congCount, ih]
    congr 1
    simp [ruleDue, h]

theorem congCount_closed (m c : Nat) (hm : 0 < m) :
    ∀ N, congCount m c N = (N + (c + (m - 1))) / m - (c + (m - 1)) / m := by
  intro N
  induction N with
  | zero => simp [congCount]
  | succ n ih =>
    rw [congCount, ih]
    have harr : n + 1 + (c + (m - 1)) = n + (c + (m - 1)) + 1 := by omega
    rw [harr, Nat.succ_div]
    have hdvd : (m ∣ n + (c + (m - 1)) + 1) ↔ ((n + c) % m = 0) := by
      have h1 : n + (c + (m - 1)) + 1 = (n + c) + m := by omega
      rw [h1, Nat.dvd_add_self_right, Nat.dvd_iff_mod_eq_zero]
    have hle : (c + (m - 1)) / m ≤ (n + (c + (m - 1))) / m :=
      Nat.div_le_div_right (by omega)
    by_cases hc : (n + c) % m = 0
    · rw [if_pos hc, if_pos (hdvd.mpr hc)]
      omega
    · rw [if_neg hc, if_neg (fun hd => hc (hdvd.mp hd))]
      omega

theorem congCount_bounds (m c : Nat) (hm : 0 < m) (N : Nat) :
    N / m ≤ congCount m c N ∧ congCount m c N ≤ N / m + 1 := by
  rw [congCount_closed m c hm N]
  have hadd : (N + (c + (m - 1))) / m =
      N / m + (c + (m - 1)) / m +
        if m ≤ N % m + (c + (m - 1)) % m then 1 else 0 := Nat.add_div hm
  have hif : (if m ≤ N % m + (c + (m - 1)) % m then 1 else 0) ≤ 1 := by
    split <;> omega
  generalize hq : N / m = q at hadd ⊢
  generalize hD : (c + (m - 1)) / m = D at hadd ⊢
  generalize hX : (N + (c + (m - 1))) / m = X at hadd ⊢
  generalize hf : (if m ≤ N % m + (c + (m - 1)) % m then 1 else 0) = f at hadd hif
  omega

/-- C5: a rule whose interval `I` is an exact multiple of the base interval
`B` is due exactly on ticks where `(tick + phase) mod (I/B) = 0`, so over `N`
consecutive ticks it is dispatched `N/(I/B)` times up to one extra dispatch
from the phase offset at the window boundaries; a rule whose interval is not
an exact multiple of `B` is never due. -/
theorem due_cadence :
    ∀ (I B phase N : Nat), 0 < B → I % B = 0 → B ≤ I →
    ((∀ t, ruleDue I B phase t = true ↔ (t + phase) % (I / B) = 0) ∧
      (N / (I / B) ≤ dueCount I B phase N ∧
        dueCount I B phase N ≤ N / (I / B) + 1)) ∧
    (∀ J t, J % B ≠ 0 → ruleDue J B phase t = false) := by
  intro I B phase N hB hIB hBI
  have hm : 0 < I / B := Nat.div_pos hBI hB
  refine ⟨⟨?_, ?_⟩, ?_⟩
  · intro t
    simp [ruleDue, hIB]
  · rw [dueCount_eq_congCount I B phase hIB N]
    exact congCount_bounds (I / B) phase hm N
  · intro J t hJ
    simp [ruleDue, hJ]

/-- Witness for C5: the default 60-second rule interval on the 10-second base
interval is due every 6th tick, 4 or 5 times in any 25-tick window. -/
theorem due_cadence_witness :
    (0 < 10 ∧ 60 % 10 = 0 ∧ 10 ≤ 60) ∧
    ((∀ t, ruleDue 60 10 0 t = true ↔ (t + 0) % (60 / 10) = 0) ∧
      (25 / (60 / 10) ≤ dueCount 60 10 0 25 ∧
        dueCount 60 10 0 25 ≤ 25 / (60 / 10) + 1)) ∧
    (∀ J t, J % 10 ≠ 0 → ruleDue J 10 0 t = false) :=
  ⟨⟨by decide, by decide, by decide⟩,
    due_cadence 60 10 0 25 (by decide) (by decide) (by decide)⟩


theorem withTimes_cons (t0 B : Nat) (v : Verdict) (vs : List Verdict) :
    withTimes t0 B (v :: vs) = (v, t0) :: withTimes (t0 + B) B vs := rfl

theorem alertingEntries_cons (r : AlertRule) (i : AlertInstance) (v : Verdict)
    (t : Nat) (rest : List (Verdict × Nat)) :
    alertingEntries r i ((v, t) :: rest) =
      (if i.state ≠ AlertState.alerting ∧
          (transition r i v t).1.state = AlertState.alerting then 1 else 0) +
        alertingEntries r (transition r i v t).1 rest := rfl

theorem endState_cons (r : AlertRule) (i : AlertInstance) (v : Verdict)
    (t : Nat) (rest : List (Verdict × Nat)) :
    endState r i ((v, t) :: rest) = endState r (transition r i v t).1 rest := rfl

theorem runSteps_cons (r : AlertRule) (i : AlertInstance) (v : Verdict)
    (t : Nat) (rest : List (Verdict × Nat)) :
    runSteps r i ((v, t) :: rest) =
      (transition r i v t).1 :: runSteps r (transition r i v t).1 rest := rfl

theorem alerting_run (pd : Nat) (pol : NoDataPolicy) (B : Nat) :
    ∀ (j s since le : Nat),
    alertingEntries ⟨pd, pol⟩ ⟨AlertState.alerting, since, le⟩
        (withTimes s B (List.replicate j Verdict.firing ++ [Verdict.normal])) = 0 ∧
    (endState ⟨pd, pol⟩ ⟨AlertState.alerting, since, le⟩
        (withTimes s B (List.replicate j Verdict.firing ++ [Verdict.normal]))).state =
      AlertState.normal := by
  intro j
  induction j with
  | zero =>
    intro s since le
    simp [withTimes, alertingEntries, endState, transition, applyNormalVerdict]
  | succ n ih =>
    intro s since le
    have hstep : transition ⟨pd, pol⟩ ⟨AlertState.alerting, since, le⟩
        Verdict.firing s = (⟨AlertState.alerting, since, s⟩, []) := by
      simp [transition, applyFiring]
    constructor
    · rw [List.replicate_succ, List.cons_append, withTimes_cons, alertingEntries_cons]
      simp [hstep, (ih (s + B) since s).1]
    · rw [List.replicate_succ, List.cons_append, withTimes_cons, endState_cons]
      simp [hstep, (ih (s + B) since s).2]

theorem pending_run (pd : Nat) (pol : NoDataPolicy) (B : Nat) :
    ∀ (j s t0 le : Nat), t0 ≤ s →
    ((1 ≤ j ∧ pd + t0 ≤ s + (j - 1) * B) →
      alertingEntries ⟨pd, pol⟩ ⟨AlertState.pending, t0, le⟩
          (withTimes s B (List.replicate j Verdict.firing ++ [Verdict.normal])) = 1 ∧
      (endState ⟨pd, pol⟩ ⟨AlertState.pending, t0, le⟩
          (withTimes s B (List.replicate j Verdict.firing ++ [Verdict.normal]))).state =
        AlertState.normal) ∧
    (¬(1 ≤ j ∧ pd + t0 ≤ s + (j - 1) * B) →
      alertingEntries ⟨pd, pol⟩ ⟨AlertState.pending, t0, le⟩
          (withTimes s B (List.replicate j Verdict.firing ++ [Verdict.normal])) = 0 ∧
      (endState ⟨pd, pol⟩ ⟨AlertState.pending, t0, le⟩
          (withTimes s B (List.replicate j Verdict.firing ++ [Verdict.normal]))).state =
        AlertState.normal ∧
      ∀ x ∈ runSteps ⟨pd, pol⟩ ⟨AlertState.pending, t0, le⟩
          (withTimes s B (List.replicate j Verdict.firing ++ [Verdict.normal])),
        x.state ≠ AlertState.alerting) := by
  intro j
  induction j with
  | zero =>
    intro s t0 le ht
    constructor
    · rintro ⟨h1, _⟩
      exact absurd h1 (by omega)
    · intro _
      refine ⟨?_, ?_, ?_⟩ <;>
        simp [withTimes, alertingEntries, endState, runSteps, transition,
          applyNormalVerdict]
  | succ n ih =>
    intro s t0 le ht
    by_cases hfire : pd ≤ s - t0
    · -- the pending duration has elapsed at this tick: the step enters Alerting
      have hstep : transition ⟨pd, pol⟩ ⟨AlertState.pending, t0, le⟩
          Verdict.firing s = (⟨AlertState.alerting, s, s⟩, [TransitionEvent.fires]) := by
        simp [transition, applyFiring, hfire]
      have hcond : 1 ≤ n + 1 ∧ pd + t0 ≤ s + (n + 1 - 1) * B := by
        refine ⟨by omega, ?_⟩
        have hle : s ≤ s + (n + 1 - 1) * B := Nat.le_add_right _ _
        omega
      constructor
      · intro _
        constructor
        · rw [List.replicate_succ, List.cons_append, withTimes_cons, alertingEntries_cons]
          simp [hstep, (alerting_run pd pol B n (s + B) s s).1]
        · rw [List.replicate_succ, List.cons_append, withTimes_cons, endState_cons]
          simp [hstep, (alerting_run pd pol B n (s + B) s s).2]
      · intro hnot
        exact absurd hcond hnot
    · -- not yet elapsed: the step stays Pending (entry timestamp kept)
      have hstep : transition ⟨pd, pol⟩ ⟨AlertState.pending, t0, le⟩
          Verdict.firing s = (⟨AlertState.pending, t0, s⟩, []) := by
        simp [transition, applyFiring, hfire]
      have ih' := ih (s + B) t0 s (le_trans ht (Nat.le_add_right s B))
      cases n with
      | zero =>
        constructor
        · rintro ⟨_, hpd⟩
          simp only [Nat.sub_self, Nat.zero_mul, Nat.add_zero] at hpd
          exact absurd (by omega : pd ≤ s - t0) hfire
        · intro _
          obtain ⟨e0, en, na⟩ := ih'.2 (by rintro ⟨h1, _⟩; omega)
          simp only [List.replicate_zero, List.nil_append] at e0 en na
          refine ⟨?_, ?_, ?_⟩
          · rw [List.replicate_succ, List.cons_append, withTimes_cons, alertingEntries_cons]
            simp [hstep, e0]
          · rw [List.replicate_succ, List.cons_append, withTimes_cons, endState_cons]
            simp [hstep, en]
          · rw [List.replicate_succ, List.cons_append, withTimes_cons, runSteps_cons, hstep]
            intro x hx
            rcases List.mem_cons.mp hx with hx | hx
            · rw [hx]
              simp
            · exact na x hx
      | succ m =>
        have hsm : (m + 1) * B = m * B + B := Nat.succ_mul m B
        by_cases hc : pd + t0 ≤ s + B + m * B
        · have hyes := ih'.1 ⟨by omega, by
            simp only [Nat.add_sub_cancel]
            omega⟩
          obtain ⟨e1, en⟩ := hyes
          constructor
          · intro _
            constructor
            · rw [List.replicate_succ, List.cons_append, withTimes_cons, alertingEntries_cons]
              simp [hstep, e1]
            · rw [List.replicate_succ, List.cons_append, withTimes_cons, endState_cons]
              simp [hstep, en]
          · intro hnot
            refine absurd ⟨by omega, ?_⟩ hnot
            simp only [Nat.add_sub_cancel, hsm]
            omega
        · have hno := ih'.2 (by
            rintro ⟨_, hpd⟩
            simp only [Nat.add_sub_cancel] at hpd
            omega)
          obtain ⟨e0, en, na⟩ := hno
          constructor
          · rintro ⟨_, hpd⟩
            simp only [Nat.add_sub_cancel, hsm] at hpd
            omega
          · intro _
            refine ⟨?_, ?_, ?_⟩
            · rw [List.replicate_succ, List.cons_append, withTimes_cons, alertingEntries_cons]
              simp [hstep, e0]
            · rw [List.replicate_succ, List.cons_append, withTimes_cons, endState_cons]
              simp [hstep, en]
            · rw [List.replicate_succ, List.cons_append, withTimes_cons, runSteps_cons, hstep]
              intro x hx
              rcases List.mem_cons.mp hx with hx | hx
              · rw [hx]
                simp
              · exact na x hx

/-- C3 (amended): starting from `Normal`, a verdict sequence of `k` Firing
verdicts (spaced `B` seconds apart) followed by one Normal verdict enters
`Alerting` exactly once iff `k ≥ 2` and `(k-1)*B ≥ pendingDuration` (the
first Firing only enters `Pending`; the pending clock starts there), and
otherwise returns to `Normal` without the instance ever having been in
`Alerting`; in both cases the final state is `Normal`. -/
theorem alerting_iff_pending_elapsed :
    ∀ (pd B k t0 : Nat) (pol : NoDataPolicy),
    alertingEntries ⟨pd, pol⟩ ⟨AlertState.normal, t0, t0⟩
        (withTimes t0 B (List.replicate k Verdict.firing ++ [Verdict.normal])) =
      (if 2 ≤ k ∧ pd ≤ (k - 1) * B then 1 else 0) ∧
    (endState ⟨pd, pol⟩ ⟨AlertState.normal, t0, t0⟩
        (withTimes t0 B (List.replicate k Verdict.firing ++ [Verdict.normal]))).state =
      AlertState.normal ∧
    (¬(2 ≤ k ∧ pd ≤ (k - 1) * B) →
      ∀ x ∈ runSteps ⟨pd, pol⟩ ⟨AlertState.normal, t0, t0⟩
          (withTimes t0 B (List.replicate k Verdict.firing ++ [Verdict.normal])),
        x.state ≠ AlertState.alerting) := by
  intro pd B k t0 pol
  cases k with
  | zero =>
    refine ⟨?_, ?_, ?_⟩
    · rw [if_neg (by omega)]
      simp [withTimes, alertingEntries, transition, applyNormalVerdict]
    · simp [withTimes, endState, transition, applyNormalVerdict]
    · intro _
      simp [withTimes, runSteps, transition, applyNormalVerdict]
  | succ n =>
    have hstep : transition ⟨pd, pol⟩ ⟨AlertState.normal, t0, t0⟩
        Verdict.firing t0 = (⟨AlertState.pending, t0, t0⟩, []) := by
      simp [transition, applyFiring]
    have hp := pending_run pd pol B n (t0 + B) t0 t0 (Nat.le_add_right _ _)
    by_cases hc : 2 ≤ n + 1 ∧ pd ≤ (n + 1 - 1) * B
    · have hinner : 1 ≤ n ∧ pd + t0 ≤ t0 + B + (n - 1) * B := by
        obtain ⟨h2, hpd⟩ := hc
        have h1n : 1 ≤ n := by omega
        refine ⟨h1n, ?_⟩
        obtain ⟨m, rfl⟩ : ∃ m, n = m + 1 := ⟨n - 1, by omega⟩
        simp only [Nat.add_sub_cancel] at hpd ⊢
        rw [Nat.succ_mul] at hpd
        omega
      obtain ⟨e1, en⟩ := hp.1 hinner
      refine ⟨?_, ?_, ?_⟩
      · rw [if_pos hc]
        rw [List.replicate_succ, List.cons_append, withTimes_cons, alertingEntries_cons]
        simp [hstep, e1]
      · rw [List.replicate_succ, List.cons_append, withTimes_cons, endState_cons]
        simp [hstep, en]
      · intro hnot
        exact absurd hc hnot
    · have hinner : ¬(1 ≤ n ∧ pd + t0 ≤ t0 + B + (n - 1) * B) := by
        rintro ⟨h1n, hpd⟩
        apply hc
        refine ⟨by omega, ?_⟩
        obtain ⟨m, rfl⟩ : ∃ m, n = m + 1 := ⟨n - 1, by omega⟩
        simp only [Nat.add_sub_cancel] at hpd ⊢
        rw [Nat.succ_mul]
        omega
      obtain ⟨e0, en, na⟩ := hp.2 hinner
      refine ⟨?_, ?_, ?_⟩
      · rw [if_neg hc]
        rw [List.replicate_succ, List.cons_append, withTimes_cons, alertingEntries_cons]
        simp [hstep, e0]
      · rw [List.replicate_succ, List.cons_append, withTimes_cons, endState_cons]
        simp [hstep, en]
      · intro _
        rw [List.replicate_succ, List.cons_append, withTimes_cons, runSteps_cons, hstep]
        intro x hx
        rcases List.mem_cons.mp hx with hx | hx
        · rw [hx]
          simp
        · exact na x hx

/-- Counterexample to C3 as stated: with `k = 1`, `B = 10` and
`pendingDuration = 10`, the claim's condition `k*B ≥ pendingDuration` holds,
yet the instance never reaches `Alerting` — a single Firing tick only enters
`Pending`, and the pending clock starts at that first Firing evaluation. -/
theorem alerting_iff_pending_elapsed_counterexample :
    10 ≤ 1 * 10 ∧
    alertingEntries ⟨10, NoDataPolicy.keepLast⟩ ⟨AlertState.normal, 0, 0⟩
      (withTimes 0 10 (List.replicate 1 Verdict.firing ++ [Verdict.normal])) = 0 := by
  decide

/-- Witness for C3 (amended): two Firing ticks 10 s apart with a 10-second
pending duration enter `Alerting` exactly once and resolve to `Normal`. -/
theorem alerting_iff_pending_elapsed_witness :
    alertingEntries ⟨10, NoDataPolicy.keepLast⟩ ⟨AlertState.normal, 0, 0⟩
        (withTimes 0 10 (List.replicate 2 Verdict.firing ++ [Verdict.normal])) =
      (if 2 ≤ 2 ∧ 10 ≤ (2 - 1) * 10 then 1 else 0) ∧
    (endState ⟨10, NoDataPolicy.keepLast⟩ ⟨AlertState.normal, 0, 0⟩
        (withTimes 0 10 (List.replicate 2 Verdict.firing ++ [Verdict.normal]))).state =
      AlertState.normal ∧
    (¬(2 ≤ 2 ∧ 10 ≤ (2 - 1) * 10) →
      ∀ x ∈ runSteps ⟨10, NoDataPolicy.keepLast⟩ ⟨AlertState.normal, 0, 0⟩
          (withTimes 0 10 (List.replicate 2 Verdict.firing ++ [Verdict.normal])),
        x.state ≠ AlertState.alerting) :=
  alerting_iff_pending_elapsed 10 10 2 0 NoDataPolicy.keepLast

theorem eachPrecededBy_trans (A W T : RunEvent → Bool) :
    ∀ l : List RunEvent, eachPrecededBy A T l = true →
      eachPrecededBy W A l = true → eachPrecededBy W T l = true := by
  intro l
  induction l with
  | nil => intro _ _; rfl
  | cons e rest ih =>
    intro h1 h2
    rw [eachPrecededBy] at h1 h2 ⊢
    by_cases hT : T e = true
    · rw [if_pos hT] at h1
      exact absurd h1 (by simp)
    · rw [if_neg hT] at h1 ⊢
      by_cases hA : A e = true
      · rw [if_pos hA] at h2
        exact absurd h2 (by simp)
      · rw [if_neg hA] at h1 h2
        by_cases hW : W e = true
        · rw [if_pos hW]
        · rw [if_neg hW] at h2 ⊢
          exact ih h1 h2

/-- C1: in every valid execution trace of `AlertNG.Run`, the state manager's
`Warm()` happens exactly once, before the scheduler's `Run` is started and
(hence) before any tick is dispatched. -/
theorem warm_before_first_tick :
    ∀ tr, ValidTrace tr →
    tr.count RunEvent.warm = 1 ∧
    eachPrecededBy (fun e => e == RunEvent.warm)
      (fun e => e == RunEvent.start SubTask.scheduler) tr = true ∧
    eachPrecededBy (fun e => e == RunEvent.warm) isTick tr = true := by
  intro tr v
  refine ⟨v.warmOnce, v.warmBeforeSched, ?_⟩
  exact eachPrecededBy_trans (fun e => e == RunEvent.start SubTask.scheduler)
    (fun e => e == RunEvent.warm) isTick tr v.ticksAfterSchedStart v.warmBeforeSched

/-- C6: `Run` returns only after both the scheduler loop and the
per-organization Alertmanager loop have stopped — both are registered in the
one errgroup whose `Wait` is returned, so every `ret` is preceded by both
stops — and a context cancellation stops both. -/
theorem run_joins_scheduler_and_notifier :
    ∀ tr, ValidTrace tr →
    (eachPrecededBy (fun e => e == RunEvent.stop SubTask.scheduler)
        (fun e => e == RunEvent.ret) tr = true ∧
      eachPrecededBy (fun e => e == RunEvent.stop SubTask.notifier)
        (fun e => e == RunEvent.ret) tr = true) ∧
    (RunEvent.cancel ∈ tr →
      RunEvent.stop SubTask.scheduler ∈ tr ∧ RunEvent.stop SubTask.notifier ∈ tr) := by
  intro tr v
  have hs : SubTask.scheduler ∈ registeredBeforeWait runBody := by decide
  have hn : SubTask.notifier ∈ registeredBeforeWait runBody := by decide
  refine ⟨⟨v.joinBeforeRet _ hs, v.joinBeforeRet _ hn⟩, ?_⟩
  intro hc
  exact ⟨v.cancelStopsAll hc _ hs, v.cancelStopsAll hc _ hn⟩

/-- A complete execution trace of `Run`: warm start, both loops started, two
ticks, clean termination of both loops, return. -/
def sampleTrace : List RunEvent :=
  [RunEvent.warm, RunEvent.start SubTask.scheduler, RunEvent.start SubTask.notifier,
    RunEvent.tick 0, RunEvent.tick 1, RunEvent.stop SubTask.scheduler,
    RunEvent.stop SubTask.notifier, RunEvent.ret]

theorem sampleTrace_valid : ValidTrace sampleTrace :=
  ⟨by decide, by decide, by decide, by decide, by decide, by decide, by decide⟩

/-- Witness for C1 at the concrete trace `sampleTrace`. -/
theorem warm_before_first_tick_witness :
    sampleTrace.count RunEvent.warm = 1 ∧
    eachPrecededBy (fun e => e == RunEvent.warm)
      (fun e => e == RunEvent.start SubTask.scheduler) sampleTrace = true ∧
    eachPrecededBy (fun e => e == RunEvent.warm) isTick sampleTrace = true :=
  warm_before_first_tick sampleTrace sampleTrace_valid

/-- Witness for C6 at the concrete trace `sampleTrace`. -/
theorem run_joins_scheduler_and_notifier_witness :
    (eachPrecededBy (fun e => e == RunEvent.stop SubTask.scheduler)
        (fun e => e == RunEvent.ret) sampleTrace = true ∧
      eachPrecededBy (fun e => e == RunEvent.stop SubTask.notifier)
        (fun e => e == RunEvent.ret) sampleTrace = true) ∧
    (RunEvent.cancel ∈ sampleTrace →
      RunEvent.stop SubTask.scheduler ∈ sampleTrace ∧
        RunEvent.stop SubTask.notifier ∈ sampleTrace) :=
  run_joins_scheduler_and_notifier sampleTrace sampleTrace_valid

/-- Witness for C10: a bare metric query `"foo"` with exactly 20 series
yields the `ADD_SUM` hint with `preventSubmit` set. -/
theorem addSum_hint_characterization_witness :
    ((∃ hint ∈ getQueryHints (fun _ => 15) ⟨some "foo", none, none⟩
        (some (List.replicate 20 ())) none none, hint.type = "ADD_SUM") ↔
      ((∃ l, (some (List.replicate 20 ()) : Option (List Unit)) = some l ∧
          SUM_HINT_THRESHOLD_COUNT ≤ l.length) ∧
        isSimpleMetric (((⟨some "foo", none, none⟩ : PromQuery).expr.getD "").trim) =
          true)) ∧
    (∀ hint ∈ getQueryHints (fun _ => 15) ⟨some "foo", none, none⟩
        (some (List.replicate 20 ())) none none, hint.type = "ADD_SUM" →
      hint.fix = some ⟨"Consider aggregating with sum().",
        ⟨"ADD_SUM", (⟨some "foo", none, none⟩ : PromQuery).expr.getD "", true, none⟩⟩) :=
  addSum_hint_characterization (fun _ => 15) ⟨some "foo", none, none⟩
    (some (List.replicate 20 ())) none none
